import Mathlib

/-!
Shallow embedding of the AloisioMagalhaes/https-server repository.

The repository contains two variants of the same static-file HTTPS server:

* variant A, the class-based refactor under `src/`: `FileService`,
  `FileCache`, `RequestCounter` and `RequestHandler.handle`
  (`src/domain/use-cases/file-service.ts`, `src/domain/entities/...`);
* variant B, the original single-file server `StaticHttpServer`
  (`src/unnamed/part_001`, compiled as `dist/server.js`, which is the entry
  point named by the Dockerfile).

Pure computations (path resolution, chunk arithmetic) are translated as Lean
functions.  The effectful request handlers are translated as functions that
return the ordered list of observable events (header writes, status line,
body writes, cache and filesystem operations, escaped exceptions) that the
JavaScript code performs, with the nondeterministic inputs (weak-reference
cache lookup results, filesystem contents, injected faults) passed as
parameters.
-/

namespace HttpsServer

/-- Byte sequences (Node `Buffer` / `Uint8Array`) are modelled as lists of
natural numbers. -/
abbrev ByteSeq := List Nat

/-- A JavaScript string used as a response body, viewed as bytes
(code points; the exact encoding is irrelevant to the claims). -/
def bytes (s : String) : ByteSeq := s.data.map Char.toNat

/-! ## Path resolution

`FileService.resolvePath` (file-service.ts line 12) and the inline
resolution in `StaticHttpServer.handleRequest` (part_001 lines 241-244) are
the same expression: `path.join(wwwRoot, url === '/' ? 'index.html' : url || '')`.
Node's `path.posix.join` concatenates the non-empty arguments with `/` and
then normalizes the result, folding `.` and `..` segments; we model that
normalization faithfully. -/

/-- A path segment, as a list of characters (the path model works on
`List Char` so that every operation is structurally recursive). -/
abbrev Seg := List Char

/-- Split a character list on `'/'` (the segment decomposition performed by
Node's `normalizeString`); splitting the empty list gives one empty
segment, like `String.splitOn`. -/
def splitOnSlash (cs : List Char) : List Seg :=
  cs.foldr (fun c acc => if c = '/' then [] :: acc else (c :: acc.headD []) :: acc.tail) [[]]

/-- Join segments with `'/'` separators. -/
def joinSlash (segs : List Seg) : List Char :=
  (segs.intersperse ['/']).flatten

/-- Whether the path starts with `'/'` (Node `isAbsolute`). -/
def headIsSlash (cs : List Char) : Bool :=
  match cs with
  | [] => false
  | c :: _ => c = '/'

/-- Whether the path ends with `'/'` (Node `trailingSeparator`). -/
def lastIsSlash (cs : List Char) : Bool :=
  match cs.getLast? with
  | some c => c = '/'
  | none => false

/-- One step of segment normalization in Node's `path.posix.normalize`:
empty and `.` segments are dropped, `..` pops the previous real segment
(being dropped entirely at the root of an absolute path and being kept at
the head of a relative path), and any other segment is pushed.  The
accumulator `stack` holds the segments processed so far, most recent
first. -/
def normStep (abs : Bool) (stack : List Seg) (seg : Seg) : List Seg :=
  if seg = [] ∨ seg = ['.'] then stack
  else if seg = ['.', '.'] then
    match stack with
    | [] => if abs then [] else [['.', '.']]
    | top :: rest => if top = ['.', '.'] then ['.', '.'] :: top :: rest else rest
  else seg :: stack

/-- Normalize a list of path segments (Node `normalizeString`). -/
def normSegments (abs : Bool) (segs : List Seg) : List Seg :=
  (segs.foldl (normStep abs) []).reverse

/-- Model of Node's `path.posix.normalize`. -/
def pathNormalize (p : String) : String :=
  if p = "" then "."
  else
    let cs := p.data
    let abs := headIsSlash cs
    let trailing := lastIsSlash cs
    let core := joinSlash (normSegments abs (splitOnSlash cs))
    if core = [] then (if abs then "/" else if trailing then "./" else ".")
    else String.mk ((if abs then ['/'] else []) ++ core ++ (if trailing then ['/'] else []))

/-- Model of Node's two-argument `path.posix.join`: the non-empty arguments
are concatenated with `'/'` and the result is normalized; joining two empty
strings gives `"."`. -/
def pathJoin (a b : String) : String :=
  if a = "" ∧ b = "" then "."
  else if a = "" then pathNormalize b
  else if b = "" then pathNormalize a
  else pathNormalize (String.mk (a.data ++ '/' :: b.data))

/-- JavaScript `s || ''` on a string: the empty string (falsy) is mapped to
`''`, every other string to itself. -/
def jsOrEmpty (s : String) : String := if s = "" then "" else s

/-- `FileService.resolvePath` (file-service.ts line 12), also inlined at
part_001 lines 241-244:
`path.join(wwwRoot, url === '/' ? 'index.html' : url || '')`. -/
def resolvePath (wwwRoot url : String) : String :=
  pathJoin wwwRoot (if url = "/" then "index.html" else jsOrEmpty url)

/-! ## Chunked streaming

`FileService.readStream` (file-service.ts lines 19-36) and
`StaticHttpServer.getFileStream` (part_001 lines 186-207) read a file of
size `n` in `Math.ceil(n / chunkSize)` chunks of `64 * 1024` bytes, the
`i`-th read at offset `i * chunkSize`, yielding `buffer.subarray(0, bytesRead)`. -/

/-- `const chunkSize = 64 * 1024` (file-service.ts line 21). -/
def chunkSize : Nat := 64 * 1024

/-- `Math.ceil(stats.size / chunkSize)` (file-service.ts line 22). -/
def totalChunks (n : Nat) : Nat := (n + chunkSize - 1) / chunkSize

/-- `fs.readSync(fileHandle, buffer, 0, len, pos)` followed by
`buffer.subarray(0, bytesRead)`: the bytes of the file from offset `pos`,
at most `len` of them. -/
def readAt (file : ByteSeq) (pos len : Nat) : ByteSeq :=
  (file.drop pos).take len

/-- The chunks yielded by `readStream`/`getFileStream` on a file whose
on-disk bytes are `file`: chunk `i` is the read at offset `i * chunkSize`,
for `i` in `0, ..., totalChunks - 1` in loop order. -/
def readStreamChunks (file : ByteSeq) : List ByteSeq :=
  (List.range (totalChunks file.length)).map fun i => readAt file (i * chunkSize) chunkSize

/-- The file offsets at which the successive chunk reads happen. -/
def streamOffsets (n : Nat) : List Nat :=
  (List.range (totalChunks n)).map fun i => i * chunkSize

/-! ## The request counter

`RequestCounter` (request-counter.ts lines 5-16) holds a `Uint32Array` over
a `SharedArrayBuffer`; `increment` is `Atomics.add(counter, 0, 1)` (32-bit
wrap-around addition) and `value` is `Atomics.load(counter, 0)`.
`StaticHttpServer` (part_001 lines 111-112, 218-223) does the same inline. -/

/-- The 32-bit modulus of the `Uint32Array` cell. -/
def uint32Mod : Nat := 2 ^ 32

/-- `Atomics.add(this.counter, 0, 1)`: one increment of the 32-bit cell. -/
def counterIncrement (c : Nat) : Nat := (c + 1) % uint32Mod

/-- The counter value after `n` sequential handled requests starting from a
fresh (zero) counter: each request performs exactly one increment. -/
def seqCounter : Nat → Nat
  | 0 => 0
  | n + 1 => counterIncrement (seqCounter n)

/-! ## The weak-reference file cache

`FileCache` (file-cache.ts lines 5-19, identically part_001 lines 79-101)
keeps a `Map<string, WeakRef<Uint8Array>>`.  `set(path, data)` stores a
fresh weak reference to `data` under `path` (overwriting any previous
binding for that path) and `get(path)` dereferences the current weak
reference, yielding `undefined` if the referent has been reclaimed.

We model this operationally: each `set` allocates a fresh buffer identity
in a store of live buffers, and the garbage collector may nondeterministically
reclaim any buffer identity at any point (a `reclaimOp` between operations).
`get` succeeds exactly when the currently mapped identity is still live. -/

/-- First-match association lookup with `String` keys (the observable
behaviour of `Map.get` on our prepend-on-set representation). -/
def assocFind (k : String) : List (String × Nat) → Option Nat
  | [] => none
  | (a, b) :: t => if a = k then some b else assocFind k t

/-- First-match lookup in the live-buffer store. -/
def storeFind (id : Nat) : List (Nat × ByteSeq) → Option ByteSeq
  | [] => none
  | (a, b) :: t => if a = id then some b else storeFind id t

/-- The state of a `FileCache` together with the heap of still-live cached
buffers: `table` maps paths to buffer identities (most recent binding
first, mirroring `Map.set` overwriting) and `store` holds the identities
whose referents the garbage collector has not reclaimed yet. -/
structure CacheState where
  nextId : Nat
  table : List (String × Nat)
  store : List (Nat × ByteSeq)

/-- An event affecting the cache: a `FileCache.set` call, or a garbage
collection reclaiming one weakly-held buffer. -/
inductive CacheOp where
  | setOp (path : String) (data : ByteSeq)
  | reclaimOp (id : Nat)

/-- `FileCache.set` binds the path to a fresh weak reference
(file-cache.ts lines 15-18); a reclamation removes one buffer from the live
store (the `WeakRef` deref starts answering `undefined`). -/
def cacheStep (s : CacheState) : CacheOp → CacheState
  | CacheOp.setOp p d => ⟨s.nextId + 1, (p, s.nextId) :: s.table, (s.nextId, d) :: s.store⟩
  | CacheOp.reclaimOp id => ⟨s.nextId, s.table, s.store.filter (fun e => e.1 ≠ id)⟩

/-- A fresh `FileCache` holds no entries. -/
def cacheInit : CacheState := ⟨0, [], []⟩

/-- The cache state after a sequence of sets and reclamations. -/
def cacheRun (ops : List CacheOp) : CacheState := ops.foldl cacheStep cacheInit

/-- `FileCache.get` (file-cache.ts lines 11-13):
`this.cache.get(filePath)?.deref()` — look up the current weak reference
for the path and dereference it against the live store. -/
def cacheGet (s : CacheState) (p : String) : Option ByteSeq :=
  (assocFind p s.table).bind fun id => storeFind id s.store

/-- The data passed to the most recent `set` for path `p` in the operation
sequence, if any. -/
def lastSetData (ops : List CacheOp) (p : String) : Option ByteSeq :=
  ops.foldl
    (fun acc op =>
      match op with
      | CacheOp.setOp q d => if q = p then some d else acc
      | CacheOp.reclaimOp _ => acc)
    none

/-- The cache invariant carried by the induction: identities reachable from
the table or live in the store are older than `nextId`, and any live hit
equals the most recent set for its path. -/
def cacheInv (ops : List CacheOp) (s : CacheState) : Prop :=
  (∀ p id, assocFind p s.table = some id → id < s.nextId)
  ∧ (∀ id v, storeFind id s.store = some v → id < s.nextId)
  ∧ (∀ p v, cacheGet s p = some v → lastSetData ops p = some v)

/-! ## File-handle accounting for the chunk streams

`FileService.readStream` (file-service.ts lines 19-36) calls `fs.openSync`
eagerly, before returning the async generator object, while
`StaticHttpServer.getFileStream` (part_001 lines 186-207) is itself an
async generator method, so its `statSync`/`openSync` only run on the first
`next()` call.  Both close the handle in a `finally` around the read loop.

JavaScript generator semantics, which the traces below encode: the body of
a generator (including any `try`/`finally`) only starts executing on the
first `next()` call; once the body has started, the `finally` block runs on
normal completion, on an exception thrown inside the `try`, and on
`return()` delivered while suspended at a `yield` inside the `try` (which
is what `for await ... of` does on early exit); but if the consumer
abandons the generator without ever calling `next()`, the body — and hence
the `finally` — never runs. -/

/-- How the consumer drives one stream: to completion, abandoning it after
`pulls` successful `next()` calls, or hitting a read error on the `i`-th
chunk read. -/
inductive ConsumerMode where
  | runToEnd
  | abandonAfter (pulls : Nat)
  | failAt (i : Nat)
deriving DecidableEq, Repr

/-- File-handle events performed by one stream. -/
inductive FdEv where
  | openFd
  | closeFd
  | readFd (i : Nat)
  | chunkOut (i : Nat)
deriving DecidableEq, Repr

/-- The `i`-th loop iteration: `fs.readSync` at offset `i * chunkSize`
followed by `yield`. -/
def fdRead (i : Nat) : List FdEv := [FdEv.readFd i, FdEv.chunkOut i]

/-- The events of the generator body once it has started, for a file of
`k` chunks: reads and yields in loop order, with the `finally` close at
the end of every path that enters the body. -/
def genBodyTrace (k : Nat) (mode : ConsumerMode) : List FdEv :=
  match mode with
  | ConsumerMode.runToEnd => (List.range k).flatMap fdRead ++ [FdEv.closeFd]
  | ConsumerMode.abandonAfter p => (List.range (min p k)).flatMap fdRead ++ [FdEv.closeFd]
  | ConsumerMode.failAt i =>
    if i < k then (List.range i).flatMap fdRead ++ [FdEv.readFd i, FdEv.closeFd]
    else (List.range k).flatMap fdRead ++ [FdEv.closeFd]

/-- Variant A, `FileService.readStream`: `fs.openSync` runs eagerly when
`readStream` is called (line 23), before the async generator object is
created; a consumer that abandons the stream without any `next()` call
leaves the generator body unstarted, so the `finally` close never runs. -/
def readStreamFdTrace (n : Nat) (mode : ConsumerMode) : List FdEv :=
  match mode with
  | ConsumerMode.abandonAfter 0 => [FdEv.openFd]
  | ConsumerMode.abandonAfter (p + 1) =>
      FdEv.openFd :: genBodyTrace (totalChunks n) (ConsumerMode.abandonAfter (p + 1))
  | ConsumerMode.runToEnd =>
      FdEv.openFd :: genBodyTrace (totalChunks n) ConsumerMode.runToEnd
  | ConsumerMode.failAt i =>
      FdEv.openFd :: genBodyTrace (totalChunks n) (ConsumerMode.failAt i)

/-- Variant B, `StaticHttpServer.getFileStream`: the whole body, including
`openSync`, is inside the async generator, so nothing runs — and no handle
is opened — until the first `next()` call. -/
def getFileStreamFdTrace (n : Nat) (mode : ConsumerMode) : List FdEv :=
  match mode with
  | ConsumerMode.abandonAfter 0 => []
  | ConsumerMode.abandonAfter (p + 1) =>
      FdEv.openFd :: genBodyTrace (totalChunks n) (ConsumerMode.abandonAfter (p + 1))
  | ConsumerMode.runToEnd =>
      FdEv.openFd :: genBodyTrace (totalChunks n) ConsumerMode.runToEnd
  | ConsumerMode.failAt i =>
      FdEv.openFd :: genBodyTrace (totalChunks n) (ConsumerMode.failAt i)

/-- Number of `openSync` calls in a stream trace. -/
def fdOpens (t : List FdEv) : Nat := t.count FdEv.openFd

/-- Number of `closeSync` calls in a stream trace. -/
def fdCloses (t : List FdEv) : Nat := t.count FdEv.closeFd

/-! ## The request handlers

`RequestHandler.handle` (file-service.ts lines 65-94, variant A) and
`StaticHttpServer.handleRequest` (part_001 lines 214-279, variant B) are
modelled as functions from the request and its nondeterministic environment
to the ordered list of observable events they perform.

The environment parameters are: `cacheAt k`, the result of the `k`-th
`fileCache.get(filePath)` call of this request (the two calls of the
cache-hit branch may disagree because the weak referent can be reclaimed
between them); `fileAt p`, the on-disk content of path `p` (`none` when
`fs.existsSync` is false); and `fault`, which designates at most one
operation of the request that throws.

Variant B wraps its routing in `try`/`catch`; the `catch` responds
`500 text/plain "Internal Server Error"` when `res.headersSent` is false
and only logs otherwise (part_001 lines 272-278).  Variant A has no
`try`/`catch`: `handle` is an `async` method, so a throw rejects the
returned promise, which no caller handles (`server.on('request', (req, res)
=> handler.handle(req, res))` in app.ts) — the error escapes.  In variant B
the streaming loop runs in an un-awaited async IIFE (part_001 lines
258-263), so its events happen after the synchronous part of
`handleRequest` returns, and an error inside it also escapes. -/

/-- Observable events of one handled request. -/
inductive Ev where
  | counterInc
  | setHeader (name value : String)
  | writeHead (status : Nat) (contentType : String)
  | write (chunk : ByteSeq)
  | endResp (body : Option ByteSeq)
  | cacheGetEv (path : String) (result : Option ByteSeq)
  | cacheSetEv (path : String) (data : ByteSeq)
  | fileReadEv (path : String)
  | throwEscape
deriving DecidableEq, Repr

/-- At most one injected unexpected failure per request: none, or a throw
in `resolvePath`, in `fileCache.get`, in `fs.existsSync`, in the `i`-th
chunk read of the stream, or in the post-stream `readFileSync`. -/
inductive Fault where
  | ok
  | atResolve
  | atCacheGet
  | atExists
  | atStream (i : Nat)
  | atReadAll
deriving DecidableEq, Repr

/-- The HSTS header name (part_001 lines 71-73). -/
def hstsName : String := "Strict-Transport-Security"

/-- The fixed HSTS header value (part_001 lines 71-73). -/
def hstsValue : String := "max-age=63072000; includeSubDomains; preload"

/-- Variant A, fault-free streaming branch (file-service.ts lines 83-89):
write the 200 head, write every chunk in loop order, `res.end()`, then
`fileCache.set(filePath, readFileSync(filePath))`. -/
def streamEvsANoFault (filePath : String) (content : ByteSeq) : List Ev :=
  Ev.writeHead 200 "text/html" :: (readStreamChunks content).map Ev.write
    ++ [Ev.endResp none, Ev.fileReadEv filePath, Ev.cacheSetEv filePath content]

/-- Variant A's streaming branch under an injected fault: a chunk-read
fault aborts the loop and escapes; a `readFileSync` fault happens after
`res.end()` and escapes; in both fault cases no cache set happens; faults
belonging to earlier phases never fire here. -/
def streamEvsA (fault : Fault) (filePath : String) (content : ByteSeq) : List Ev :=
  match fault with
  | Fault.atStream i =>
    if i < (readStreamChunks content).length then
      Ev.writeHead 200 "text/html"
        :: ((readStreamChunks content).take i).map Ev.write ++ [Ev.throwEscape]
    else streamEvsANoFault filePath content
  | Fault.atReadAll =>
      Ev.writeHead 200 "text/html" :: (readStreamChunks content).map Ev.write
        ++ [Ev.endResp none, Ev.throwEscape]
  | Fault.ok => streamEvsANoFault filePath content
  | Fault.atResolve => streamEvsANoFault filePath content
  | Fault.atCacheGet => streamEvsANoFault filePath content
  | Fault.atExists => streamEvsANoFault filePath content

/-- The events of `RequestHandler.handle` after the counter/header prologue
(file-service.ts lines 69-93): health route, then resolve, cache probe,
existence check, and the streaming or 404 branch.  No `try`/`catch`
anywhere: every fault turns into an escaping rejection. -/
def handleABody (fault : Fault) (url root : String) (cacheAt : Nat → Option ByteSeq)
    (fileAt : String → Option ByteSeq) : List Ev :=
  if url = "/api/health" then
    [Ev.writeHead 200 "text/plain", Ev.endResp (some (bytes "OK"))]
  else if fault = Fault.atResolve then [Ev.throwEscape]
  else
    let filePath := resolvePath root url
    if fault = Fault.atCacheGet then [Ev.throwEscape]
    else
      match cacheAt 0 with
      | some v =>
          [Ev.cacheGetEv filePath (some v), Ev.writeHead 200 "text/html",
           Ev.cacheGetEv filePath (cacheAt 1), Ev.endResp (cacheAt 1)]
      | none =>
          Ev.cacheGetEv filePath none ::
            (if fault = Fault.atExists then [Ev.throwEscape]
             else
               match fileAt filePath with
               | some content => streamEvsA fault filePath content
               | none => [Ev.writeHead 404 "text/plain", Ev.endResp (some (bytes "Not Found"))])

/-- `RequestHandler.handle` (file-service.ts lines 65-94): increment the
counter, set `X-Requests-Count` to the value read after the increment, then
route.  Returns the counter value after the request and the event trace. -/
def handleA (fault : Fault) (counter : Nat) (url root : String)
    (cacheAt : Nat → Option ByteSeq) (fileAt : String → Option ByteSeq) :
    Nat × List Ev :=
  let c := counterIncrement counter
  (c, Ev.counterInc :: Ev.setHeader "X-Requests-Count" (toString c)
        :: handleABody fault url root cacheAt fileAt)

/-- The `catch` branch of variant B when headers have not been committed
(part_001 lines 274-277). -/
def err500 : List Ev :=
  [Ev.writeHead 500 "text/plain", Ev.endResp (some (bytes "Internal Server Error"))]

/-- Variant B, streaming branch (part_001 lines 254-267): write the 200
head, launch the un-awaited async IIFE that will write the chunks and call
`res.end()`, then synchronously `readFileSync` and `fileCache.set`.  The
deferred IIFE events run after the synchronous part.  A `readFileSync`
fault is caught, but `res.headersSent` is already true, so it is only
logged; the already-launched IIFE still streams.  A chunk-read fault
happens inside the IIFE, outside the `try`/`catch`, and escapes as an
unhandled rejection. -/
def streamEvsBDeferred (fault : Fault) (content : ByteSeq) : List Ev :=
  match fault with
  | Fault.atStream i =>
    if i < (readStreamChunks content).length then
      ((readStreamChunks content).take i).map Ev.write ++ [Ev.throwEscape]
    else (readStreamChunks content).map Ev.write ++ [Ev.endResp none]
  | Fault.ok => (readStreamChunks content).map Ev.write ++ [Ev.endResp none]
  | Fault.atResolve => (readStreamChunks content).map Ev.write ++ [Ev.endResp none]
  | Fault.atCacheGet => (readStreamChunks content).map Ev.write ++ [Ev.endResp none]
  | Fault.atExists => (readStreamChunks content).map Ev.write ++ [Ev.endResp none]
  | Fault.atReadAll => (readStreamChunks content).map Ev.write ++ [Ev.endResp none]

/-- Variant B's streaming branch: the synchronous part (200 head, then
`readFileSync` and `fileCache.set` unless `readFileSync` faults) followed
by the deferred stream events. -/
def streamEvsB (fault : Fault) (filePath : String) (content : ByteSeq) : List Ev :=
  match fault with
  | Fault.atReadAll => Ev.writeHead 200 "text/html" :: streamEvsBDeferred fault content
  | Fault.ok =>
      Ev.writeHead 200 "text/html" :: Ev.fileReadEv filePath
        :: Ev.cacheSetEv filePath content :: streamEvsBDeferred fault content
  | Fault.atResolve =>
      Ev.writeHead 200 "text/html" :: Ev.fileReadEv filePath
        :: Ev.cacheSetEv filePath content :: streamEvsBDeferred fault content
  | Fault.atCacheGet =>
      Ev.writeHead 200 "text/html" :: Ev.fileReadEv filePath
        :: Ev.cacheSetEv filePath content :: streamEvsBDeferred fault content
  | Fault.atExists =>
      Ev.writeHead 200 "text/html" :: Ev.fileReadEv filePath
        :: Ev.cacheSetEv filePath content :: streamEvsBDeferred fault content
  | Fault.atStream i =>
      Ev.writeHead 200 "text/html" :: Ev.fileReadEv filePath
        :: Ev.cacheSetEv filePath content
        :: streamEvsBDeferred (Fault.atStream i) content

/-- The `try` block of `StaticHttpServer.handleRequest` (part_001 lines
240-271) together with its `catch`: resolve, cache probe, existence check,
then stream or 404; synchronous faults before `writeHead` are answered
with the 500 response. -/
def handleBTry (fault : Fault) (url root : String) (cacheAt : Nat → Option ByteSeq)
    (fileAt : String → Option ByteSeq) : List Ev :=
  if fault = Fault.atResolve then err500
  else
    let filePath := resolvePath root url
    if fault = Fault.atCacheGet then err500
    else
      match cacheAt 0 with
      | some v =>
          [Ev.cacheGetEv filePath (some v), Ev.writeHead 200 "text/html",
           Ev.cacheGetEv filePath (cacheAt 1), Ev.endResp (cacheAt 1)]
      | none =>
          Ev.cacheGetEv filePath none ::
            (if fault = Fault.atExists then err500
             else
               match fileAt filePath with
               | some content => streamEvsB fault filePath content
               | none => [Ev.writeHead 404 "text/plain", Ev.endResp (some (bytes "Not Found"))])

/-- `StaticHttpServer.handleRequest` (part_001 lines 214-279): increment
the counter, set `X-Requests-Count`, set the HSTS header (through the
header proxy), then run the guarded routing.  There is no health route in
this variant. -/
def handleB (fault : Fault) (counter : Nat) (url root : String)
    (cacheAt : Nat → Option ByteSeq) (fileAt : String → Option ByteSeq) :
    Nat × List Ev :=
  let c := counterIncrement counter
  (c, Ev.counterInc :: Ev.setHeader "X-Requests-Count" (toString c)
        :: Ev.setHeader hstsName hstsValue :: handleBTry fault url root cacheAt fileAt)

/-! ## Event classifiers used in the statements -/

/-- Whether an event is the HSTS header being set to its fixed value. -/
def isHstsSet : Ev → Bool
  | Ev.setHeader n v => n == hstsName && v == hstsValue
  | _ => false

/-- Whether an event is the counter increment. -/
def isCounterIncEv : Ev → Bool
  | Ev.counterInc => true
  | _ => false

/-- Whether an event writes a status line with the given status code. -/
def isWriteHeadStatus (status : Nat) : Ev → Bool
  | Ev.writeHead s _ => s == status
  | _ => false

/-- Whether an event is any status-line write. -/
def isWriteHeadEv : Ev → Bool
  | Ev.writeHead _ _ => true
  | _ => false

/-- Whether an event is a `fileCache.get` call. -/
def isCacheGetEv : Ev → Bool
  | Ev.cacheGetEv _ _ => true
  | _ => false

/-- Whether an event is a `fileCache.set` call. -/
def isCacheSetEv : Ev → Bool
  | Ev.cacheSetEv _ _ => true
  | _ => false

/-- Whether an event ends the response. -/
def isEndRespEv : Ev → Bool
  | Ev.endResp _ => true
  | _ => false

/-- Whether an event is a full `readFileSync` of a file. -/
def isFileReadEv : Ev → Bool
  | Ev.fileReadEv _ => true
  | _ => false

/-- Whether an event is an exception escaping the handler. -/
def isEscapeEv : Ev → Bool
  | Ev.throwEscape => true
  | _ => false

/-- Events that can appear after the counter/header prologue of either
handler: everything except the counter increment and header sets, which
both handlers perform exactly once, up front. -/
def isRoutingEv : Ev → Bool
  | Ev.counterInc => false
  | Ev.setHeader _ _ => false
  | _ => true

/-! ## Chunk-stream lemmas (claim C3) -/

/-- Auxiliary: the chunk reads at offsets `0, chunkSize, ...` reassemble
the whole file, for any chunk count whose coverage reaches the file
length. -/
theorem flatten_readAt_range (k : Nat) :
    ∀ l : ByteSeq, l.length ≤ k * chunkSize →
      ((List.range k).map fun i => readAt l (i * chunkSize) chunkSize).flatten = l := by
  induction k with
  | zero =>
    intro l h
    simp only [Nat.zero_mul, Nat.le_zero, List.length_eq_zero] at h
    simp [h]
  | succ k ih =>
    intro l h
    rw [List.range_succ_eq_map, List.map_cons, List.flatten_cons, List.map_map]
    have hmap :
        List.map ((fun i => readAt l (i * chunkSize) chunkSize) ∘ Nat.succ) (List.range k)
          = List.map (fun i => readAt (l.drop chunkSize) (i * chunkSize) chunkSize)
              (List.range k) := by
      refine List.map_congr_left fun i _ => ?_
      have harith : Nat.succ i * chunkSize = chunkSize + i * chunkSize := by
        rw [Nat.succ_mul, Nat.add_comm]
      simp only [Function.comp, readAt, List.drop_drop, harith]
    rw [hmap, ih (l.drop chunkSize)
          (by rw [List.length_drop]; rw [Nat.succ_mul] at h; omega)]
    simp [readAt, List.take_append_drop]

/-- Auxiliary: dropping the last chunk drops the last index of the range. -/
theorem dropLast_map_range {α : Type} (f : Nat → α) (k : Nat) :
    ((List.range k).map f).dropLast = (List.range (k - 1)).map f := by
  cases k with
  | zero => simp
  | succ k => rw [List.range_succ, List.map_append]; simp

/-- C3: for every file of `n` bytes, `readStream`/`getFileStream` yields
exactly `⌈n / 65536⌉` chunks, read at strictly ascending offsets, each
chunk at most 64 KiB, every chunk except possibly the last exactly 64 KiB,
and the concatenation of the chunks is the file's on-disk bytes; in
particular a 200 KiB file yields 4 (hence at least 4) chunks. -/
theorem readStream_chunking (file : ByteSeq) :
    (readStreamChunks file).length = totalChunks file.length
  ∧ (readStreamChunks file).flatten = file
  ∧ (∀ c ∈ readStreamChunks file, c.length ≤ chunkSize)
  ∧ (∀ c ∈ (readStreamChunks file).dropLast, c.length = chunkSize)
  ∧ List.Pairwise (· < ·) (streamOffsets file.length)
  ∧ totalChunks (200 * 1024) = 4 := by
  refine ⟨by simp [readStreamChunks], ?_, ?_, ?_, ?_, by decide⟩
  · exact flatten_readAt_range _ file (by unfold totalChunks chunkSize; omega)
  · intro c hc
    rcases List.mem_map.mp hc with ⟨i, _, rfl⟩
    simp only [readAt, List.length_take, List.length_drop]
    omega
  · intro c hc
    rw [readStreamChunks, dropLast_map_range] at hc
    rcases List.mem_map.mp hc with ⟨i, hi, rfl⟩
    rw [List.mem_range] at hi
    simp only [readAt, List.length_take, List.length_drop]
    simp only [totalChunks, chunkSize] at hi ⊢
    omega
  · rw [streamOffsets, List.pairwise_map]
    exact (List.pairwise_lt_range _).imp fun h => by
      unfold chunkSize; omega

/-- Witness for C3: concrete instances discharging the membership
hypotheses — the single chunk of the two-byte file is at most 64 KiB, and
the non-final chunk of a 65537-byte file is exactly 64 KiB. -/
theorem readStream_chunking_witness :
    ((List.replicate 65536 (0 : Nat)).length = chunkSize)
  ∧ (([1, 2] : ByteSeq).length ≤ chunkSize) := by
  have hchunks :
      readStreamChunks (List.replicate 65537 (0 : Nat))
        = [List.replicate 65536 0, List.replicate 1 0] := by
    have hk : totalChunks (List.replicate 65537 (0 : Nat)).length = 2 := by
      rw [List.length_replicate]; decide
    have hr : List.range 2 = [0, 1] := by decide
    have h0 : readAt (List.replicate 65537 (0 : Nat)) (0 * chunkSize) chunkSize
        = List.replicate 65536 0 := by
      rw [readAt, List.drop_replicate, List.take_replicate]
      congr 1
    have h1 : readAt (List.replicate 65537 (0 : Nat)) (1 * chunkSize) chunkSize
        = List.replicate 1 0 := by
      rw [readAt, List.drop_replicate, List.take_replicate]
      congr 1
    rw [readStreamChunks, hk, hr, List.map_cons, List.map_cons, List.map_nil, h0, h1]
  constructor
  · refine (readStream_chunking (List.replicate 65537 0)).2.2.2.1
      (List.replicate 65536 0) ?_
    rw [hchunks]
    exact List.mem_cons_self _ _
  · exact (readStream_chunking ([1, 2] : ByteSeq)).2.2.1 [1, 2] (by decide)

/-! ## Path resolution (claim C4) -/

/-- C4: `resolvePath` maps `/` to `index.html` joined under the root and
every other URL to the root joined with the URL; it performs no
path-traversal sanitization — for the root `/srv/public` the URL
`/../../etc/passwd` (which contains `../` segments) resolves to
`/etc/passwd`, which lies outside the root and is not rejected. -/
theorem resolvePath_spec :
    (∀ root url : String,
       resolvePath root url = pathJoin root (if url = "/" then "index.html" else url))
  ∧ resolvePath "/srv/public" "/" = "/srv/public/index.html"
  ∧ resolvePath "/srv/public" "/../../etc/passwd" = "/etc/passwd"
  ∧ ("/srv/public".data.isPrefixOf
       (resolvePath "/srv/public" "/../../etc/passwd").data) = false := by
  refine ⟨fun root url => ?_, by decide, by decide, by decide⟩
  unfold resolvePath jsOrEmpty
  by_cases h : url = "/"
  · simp [h]
  · by_cases h2 : url = "" <;> simp [h, h2]

/-! ## Weak-cache lemmas (claim C6) -/

/-- After the garbage collector reclaims identity `id`, dereferencing `id`
fails. -/
theorem storeFind_filter_self (id : Nat) (st : List (Nat × ByteSeq)) :
    storeFind id (st.filter fun e => e.1 ≠ id) = none := by
  induction st with
  | nil => rfl
  | cons hd tl ih =>
    obtain ⟨a, b⟩ := hd
    rw [List.filter_cons]
    by_cases hk : a = id
    · rw [if_neg (by simp [hk])]
      exact ih
    · rw [if_pos (by simp [hk]), storeFind, if_neg hk]
      exact ih

/-- A successful dereference in the store after a reclamation was already a
successful dereference of the same buffer before it. -/
theorem storeFind_filter_sub {id i : Nat} {v : ByteSeq} {st : List (Nat × ByteSeq)}
    (h : storeFind i (st.filter fun e => e.1 ≠ id) = some v) :
    storeFind i st = some v := by
  induction st with
  | nil => exact h
  | cons hd tl ih =>
    obtain ⟨a, b⟩ := hd
    rw [List.filter_cons] at h
    by_cases hk : a = id
    · rw [if_neg (by simp [hk])] at h
      rw [storeFind]
      by_cases hi : a = i
      · exfalso
        have hiid : i = id := by rw [← hi]; exact hk
        rw [hiid, storeFind_filter_self id tl] at h
        exact Option.noConfusion h
      · rw [if_neg hi]
        exact ih h
    · rw [if_pos (by simp [hk])] at h
      rw [storeFind] at h ⊢
      by_cases hi : a = i
      · rw [if_pos hi] at h ⊢
        exact h
      · rw [if_neg hi] at h ⊢
        exact ih h

/-- The most recent set for `p` after appending one more set operation. -/
theorem lastSetData_append_set (ops : List CacheOp) (q : String) (d : ByteSeq) (p : String) :
    lastSetData (ops ++ [CacheOp.setOp q d]) p
      = if q = p then some d else lastSetData ops p := by
  simp [lastSetData, List.foldl_append]

/-- Reclamations do not change the most recent set. -/
theorem lastSetData_append_reclaim (ops : List CacheOp) (id : Nat) (p : String) :
    lastSetData (ops ++ [CacheOp.reclaimOp id]) p = lastSetData ops p := by
  simp [lastSetData, List.foldl_append]

/-- The invariant holds after any sequence of sets and reclamations. -/
theorem cacheRun_inv (ops : List CacheOp) : cacheInv ops (cacheRun ops) := by
  induction ops using List.reverseRecOn with
  | nil =>
    refine ⟨?_, ?_, ?_⟩
    · intro p id h; exact Option.noConfusion h
    · intro id v h; exact Option.noConfusion h
    · intro p v h; exact Option.noConfusion h
  | append_singleton ops op ih =>
    have hrun : cacheRun (ops ++ [op]) = cacheStep (cacheRun ops) op := by
      simp [cacheRun, List.foldl_append]
    obtain ⟨htab, hsto, hget⟩ := ih
    rw [hrun]
    cases op with
    | setOp q d =>
      refine ⟨?_, ?_, ?_⟩
      · intro p id h
        rw [cacheStep] at h
        dsimp only at h
        rw [assocFind] at h
        rw [cacheStep]
        dsimp only
        by_cases hpq : q = p
        · rw [if_pos hpq] at h
          cases h
          exact Nat.lt_succ_self _
        · rw [if_neg hpq] at h
          exact Nat.lt_succ_of_lt (htab p id h)
      · intro id v h
        rw [cacheStep] at h
        dsimp only at h
        rw [storeFind] at h
        rw [cacheStep]
        dsimp only
        by_cases hid : (cacheRun ops).nextId = id
        · rw [← hid]
          exact Nat.lt_succ_self _
        · rw [if_neg hid] at h
          exact Nat.lt_succ_of_lt (hsto id v h)
      · intro p v h
        rw [cacheStep, cacheGet] at h
        dsimp only at h
        rw [lastSetData_append_set]
        rw [assocFind] at h
        by_cases hpq : q = p
        · rw [if_pos hpq] at h
          simp only [Option.bind] at h
          rw [storeFind, if_pos rfl] at h
          rw [if_pos hpq]
          exact h
        · rw [if_neg hpq] at h
          rw [if_neg hpq]
          cases hfind : assocFind p (cacheRun ops).table with
          | none =>
            rw [hfind] at h
            simp only [Option.bind] at h
            exact Option.noConfusion h
          | some id =>
            rw [hfind] at h
            simp only [Option.bind] at h
            rw [storeFind] at h
            have hlt : id < (cacheRun ops).nextId := htab p id hfind
            rw [if_neg (fun he => Nat.ne_of_lt hlt he.symm)] at h
            refine hget p v ?_
            rw [cacheGet, hfind]
            simp only [Option.bind]
            exact h
    | reclaimOp id =>
      refine ⟨?_, ?_, ?_⟩
      · intro p i h
        rw [cacheStep] at h
        dsimp only at h
        rw [cacheStep]
        dsimp only
        exact htab p i h
      · intro i v h
        rw [cacheStep] at h
        dsimp only at h
        rw [cacheStep]
        dsimp only
        exact hsto i v (storeFind_filter_sub h)
      · intro p v h
        rw [lastSetData_append_reclaim]
        rw [cacheStep, cacheGet] at h
        dsimp only at h
        cases hfind : assocFind p (cacheRun ops).table with
        | none =>
          rw [hfind] at h
          simp only [Option.bind] at h
          exact Option.noConfusion h
        | some i =>
          rw [hfind] at h
          simp only [Option.bind] at h
          refine hget p v ?_
          rw [cacheGet, hfind]
          simp only [Option.bind]
          exact storeFind_filter_sub h

/-- C6: a cache hit for path `p` returns exactly the buffer passed to the
most recent `FileCache.set(p, ...)` â never an older buffer for `p` and
never a buffer stored under a different path; a reclaimed entry only makes
the lookup absent, never wrong. -/
theorem cacheGet_returns_latest_set (ops : List CacheOp) (p : String) (v : ByteSeq)
    (h : cacheGet (cacheRun ops) p = some v) : lastSetData ops p = some v :=
  (cacheRun_inv ops).2.2 p v h

/-- Witness for C6: after setting `/a` twice and `/b` once, a hit on `/a`
is the second `/a` buffer. -/
theorem cacheGet_returns_latest_set_witness :
    lastSetData
        [CacheOp.setOp "/a" [1], CacheOp.setOp "/a" [2], CacheOp.setOp "/b" [3]] "/a"
      = some [2] :=
  cacheGet_returns_latest_set
    [CacheOp.setOp "/a" [1], CacheOp.setOp "/a" [2], CacheOp.setOp "/b" [3]]
    "/a" [2] (by decide)

/-! ## File-handle release (claim C7) -/

/-- The read/yield iterations contain no close events. -/
theorem flatMap_fdRead_closes (k : Nat) :
    ((List.range k).flatMap fdRead).count FdEv.closeFd = 0 := by
  rw [List.count_eq_zero]
  intro hmem
  rcases List.mem_flatMap.mp hmem with ⟨i, _, hin⟩
  simp [fdRead] at hin

/-- The read/yield iterations contain no open events. -/
theorem flatMap_fdRead_opens (k : Nat) :
    ((List.range k).flatMap fdRead).count FdEv.openFd = 0 := by
  rw [List.count_eq_zero]
  intro hmem
  rcases List.mem_flatMap.mp hmem with ⟨i, _, hin⟩
  simp [fdRead] at hin

/-- Once the generator body has started, it opens nothing further. -/
theorem genBodyTrace_opens (k : Nat) (m : ConsumerMode) :
    fdOpens (genBodyTrace k m) = 0 := by
  rcases m with _ | p | i
  · rw [fdOpens, genBodyTrace, List.count_append, flatMap_fdRead_opens]
    rfl
  · rw [fdOpens, genBodyTrace, List.count_append, flatMap_fdRead_opens]
    rfl
  · rw [fdOpens, genBodyTrace]
    by_cases hik : i < k
    · rw [if_pos hik, List.count_append, flatMap_fdRead_opens]
      rfl
    · rw [if_neg hik, List.count_append, flatMap_fdRead_opens]
      rfl

/-- Once the generator body has started, the `finally` close runs exactly
once, on every consumer behaviour. -/
theorem genBodyTrace_closes (k : Nat) (m : ConsumerMode) :
    fdCloses (genBodyTrace k m) = 1 := by
  rcases m with _ | p | i
  · rw [fdCloses, genBodyTrace, List.count_append, flatMap_fdRead_closes]
    rfl
  · rw [fdCloses, genBodyTrace, List.count_append, flatMap_fdRead_closes]
    rfl
  · rw [fdCloses, genBodyTrace]
    by_cases hik : i < k
    · rw [if_pos hik, List.count_append, flatMap_fdRead_closes]
      rfl
    · rw [if_neg hik, List.count_append, flatMap_fdRead_closes]
      rfl

/-- A started stream (open followed by the generator body) opens exactly
one handle. -/
theorem started_stream_opens (k : Nat) (m : ConsumerMode) :
    fdOpens (FdEv.openFd :: genBodyTrace k m) = 1 := by
  have h := genBodyTrace_opens k m
  rw [fdOpens] at h ⊢
  rw [List.count_cons, h]
  rfl

/-- A started stream closes exactly one handle. -/
theorem started_stream_closes (k : Nat) (m : ConsumerMode) :
    fdCloses (FdEv.openFd :: genBodyTrace k m) = 1 := by
  have h := genBodyTrace_closes k m
  rw [fdCloses] at h ⊢
  rw [List.count_cons, h]
  rfl

/-- C7 (amended): variant B releases exactly the handles it opened on
every consumer behaviour (abandonment before the first pull opens
nothing); variant A balances open and close on completion, on mid-stream
read errors, and on abandonment after at least one pull â but its eagerly
opened handle is never closed when the consumer abandons the stream before
any `next()` call. -/
theorem fd_release_amended :
    (∀ n mode, fdCloses (getFileStreamFdTrace n mode) = fdOpens (getFileStreamFdTrace n mode))
  ∧ (∀ n, fdCloses (readStreamFdTrace n ConsumerMode.runToEnd)
        = fdOpens (readStreamFdTrace n ConsumerMode.runToEnd))
  ∧ (∀ n p, fdCloses (readStreamFdTrace n (ConsumerMode.abandonAfter (p + 1)))
        = fdOpens (readStreamFdTrace n (ConsumerMode.abandonAfter (p + 1))))
  ∧ (∀ n i, fdCloses (readStreamFdTrace n (ConsumerMode.failAt i))
        = fdOpens (readStreamFdTrace n (ConsumerMode.failAt i)))
  ∧ (∀ n, fdOpens (readStreamFdTrace n (ConsumerMode.abandonAfter 0)) = 1
        ∧ fdCloses (readStreamFdTrace n (ConsumerMode.abandonAfter 0)) = 0) := by
  refine ⟨?_, ?_, ?_, ?_, fun n => ⟨rfl, rfl⟩⟩
  · intro n mode
    rcases mode with _ | p | i
    · rw [getFileStreamFdTrace, started_stream_closes, started_stream_opens]
    · rcases p with _ | p
      · rfl
      · rw [getFileStreamFdTrace, started_stream_closes, started_stream_opens]
    · rw [getFileStreamFdTrace, started_stream_closes, started_stream_opens]
  · intro n
    rw [readStreamFdTrace, started_stream_closes, started_stream_opens]
  · intro n p
    rw [readStreamFdTrace, started_stream_closes, started_stream_opens]
  · intro n i
    rw [readStreamFdTrace, started_stream_closes, started_stream_opens]

/-- Counterexample to C7 as stated: a 200 KiB file streamed by variant A
(`readStream`) and abandoned before any chunk is consumed opens one handle
and closes none. -/
theorem fd_leak_readStream_abandoned :
    fdOpens (readStreamFdTrace 204800 (ConsumerMode.abandonAfter 0)) = 1
  ∧ fdCloses (readStreamFdTrace 204800 (ConsumerMode.abandonAfter 0)) = 0 :=
  ⟨rfl, rfl⟩

/-! ## Handler trace structure lemmas -/

/-- Chunk writes are routing events. -/
theorem map_write_routing (l : List ByteSeq) :
    ((l.map Ev.write).all isRoutingEv) = true := by
  rw [List.all_eq_true]
  intro x hx
  rcases List.mem_map.mp hx with ⟨ch, _, rfl⟩
  rfl

/-- Every event of variant A's fault-free streaming branch is a routing
event. -/
theorem streamEvsANoFault_routing (p : String) (ct : ByteSeq) :
    (streamEvsANoFault p ct).all isRoutingEv = true := by
  simp only [streamEvsANoFault]
  simp [List.all_cons, List.all_append, map_write_routing, isRoutingEv]

/-- Every event of variant A's streaming branch is a routing event. -/
theorem streamEvsA_routing (f : Fault) (p : String) (ct : ByteSeq) :
    (streamEvsA f p ct).all isRoutingEv = true := by
  rcases f with _ | _ | _ | _ | i | _
  · exact streamEvsANoFault_routing p ct
  · exact streamEvsANoFault_routing p ct
  · exact streamEvsANoFault_routing p ct
  · exact streamEvsANoFault_routing p ct
  · simp only [streamEvsA]
    split
    · rw [List.all_eq_true]
      intro x hx
      rcases List.mem_cons.mp hx with rfl | hx
      · rfl
      · rcases List.mem_append.mp hx with hx | hx
        · rcases List.mem_map.mp hx with ⟨c, _, rfl⟩
          rfl
        · rcases List.mem_cons.mp hx with rfl | hx
          · rfl
          · exact absurd hx (List.not_mem_nil x)
    · exact streamEvsANoFault_routing p ct
  · simp only [streamEvsA]
    simp [List.all_cons, List.all_append, map_write_routing, isRoutingEv]

/-- Every event of variant B's deferred stream is a routing event. -/
theorem streamEvsBDeferred_routing (f : Fault) (ct : ByteSeq) :
    (streamEvsBDeferred f ct).all isRoutingEv = true := by
  rcases f with _ | _ | _ | _ | i | _
  · simp [streamEvsBDeferred, List.all_append, map_write_routing, isRoutingEv]
  · simp [streamEvsBDeferred, List.all_append, map_write_routing, isRoutingEv]
  · simp [streamEvsBDeferred, List.all_append, map_write_routing, isRoutingEv]
  · simp [streamEvsBDeferred, List.all_append, map_write_routing, isRoutingEv]
  · simp only [streamEvsBDeferred]
    split
    · rw [List.all_eq_true]
      intro x hx
      rcases List.mem_append.mp hx with hx | hx
      · rcases List.mem_map.mp hx with ⟨c, _, rfl⟩
        rfl
      · rcases List.mem_cons.mp hx with rfl | hx
        · rfl
        · exact absurd hx (List.not_mem_nil x)
    · simp [List.all_append, map_write_routing, isRoutingEv]
  · simp [streamEvsBDeferred, List.all_append, map_write_routing, isRoutingEv]

/-- Every event of variant B's streaming branch is a routing event. -/
theorem streamEvsB_routing (f : Fault) (p : String) (ct : ByteSeq) :
    (streamEvsB f p ct).all isRoutingEv = true := by
  rcases f with _ | _ | _ | _ | i | _ <;>
    simp only [streamEvsB] <;>
    simp [List.all_cons, isRoutingEv, streamEvsBDeferred_routing]

/-- Every event after variant A's prologue is a routing event. -/
theorem handleABody_routing (f : Fault) (u r : String) (ca : Nat → Option ByteSeq)
    (fi : String → Option ByteSeq) :
    (handleABody f u r ca fi).all isRoutingEv = true := by
  simp only [handleABody]
  split
  · rfl
  · split
    · rfl
    · split
      · rfl
      · rcases hca : ca 0 with _ | v
        · simp only [List.all_cons]
          rw [show isRoutingEv (Ev.cacheGetEv (resolvePath r u) none) = true from rfl,
             Bool.true_and]
          split
          · rfl
          · rcases hfi : fi (resolvePath r u) with _ | content
            · rfl
            · exact streamEvsA_routing f (resolvePath r u) content
        · rfl

/-- Every event after variant B's prologue is a routing event. -/
theorem handleBTry_routing (f : Fault) (u r : String) (ca : Nat → Option ByteSeq)
    (fi : String → Option ByteSeq) :
    (handleBTry f u r ca fi).all isRoutingEv = true := by
  simp only [handleBTry]
  split
  · rfl
  · split
    · rfl
    · rcases hca : ca 0 with _ | v
      · simp only [List.all_cons]
        rw [show isRoutingEv (Ev.cacheGetEv (resolvePath r u) none) = true from rfl,
           Bool.true_and]
        split
        · rfl
        · rcases hfi : fi (resolvePath r u) with _ | content
          · rfl
          · exact streamEvsB_routing f (resolvePath r u) content
      · rfl

/-- A routing event is not the counter increment. -/
theorem isCounterIncEv_false_of_routing {a : Ev} (h : isRoutingEv a = true) :
    isCounterIncEv a = false := by
  cases a <;> first | rfl | (exfalso; simp [isRoutingEv] at h)

/-- A routing event is not a header set, in particular not the HSTS set. -/
theorem isHstsSet_false_of_routing {a : Ev} (h : isRoutingEv a = true) :
    isHstsSet a = false := by
  cases a <;> first | rfl | (exfalso; simp [isRoutingEv] at h)

/-- Routing-only suffixes contain no counter increments. -/
theorem countP_counterInc_zero {t : List Ev} (h : t.all isRoutingEv = true) :
    t.countP isCounterIncEv = 0 := by
  rw [List.countP_eq_zero]
  intro a ha hcon
  rw [List.all_eq_true] at h
  rw [isCounterIncEv_false_of_routing (h a ha)] at hcon
  exact Bool.noConfusion hcon

/-- Routing-only suffixes contain no HSTS header sets. -/
theorem countP_hsts_zero {t : List Ev} (h : t.all isRoutingEv = true) :
    t.countP isHstsSet = 0 := by
  rw [List.countP_eq_zero]
  intro a ha hcon
  rw [List.all_eq_true] at h
  rw [isHstsSet_false_of_routing (h a ha)] at hcon
  exact Bool.noConfusion hcon

/-! ## The request counter per request (claim C8) -/

/-- C8: each handled request (either variant) increments the counter
exactly once, modulo the 32-bit wrap, and sets `X-Requests-Count` to the
value read after the increment; the counter always stays below `2^32`,
increases strictly until the wrap point, wraps from `2^32 - 1` to `0`, and
after `n` sequential requests from a fresh counter equals `n % 2^32` —
never decremented and never reset. -/
theorem request_counter_spec :
    (∀ f c u r ca fi,
        (handleA f c u r ca fi).1 = counterIncrement c
      ∧ (handleA f c u r ca fi).2.countP isCounterIncEv = 1
      ∧ (handleA f c u r ca fi).2.get? 1
          = some (Ev.setHeader "X-Requests-Count" (toString (counterIncrement c))))
  ∧ (∀ f c u r ca fi,
        (handleB f c u r ca fi).1 = counterIncrement c
      ∧ (handleB f c u r ca fi).2.countP isCounterIncEv = 1
      ∧ (handleB f c u r ca fi).2.get? 1
          = some (Ev.setHeader "X-Requests-Count" (toString (counterIncrement c))))
  ∧ (∀ c, counterIncrement c < uint32Mod)
  ∧ (∀ c, c + 1 < uint32Mod → counterIncrement c = c + 1)
  ∧ counterIncrement (uint32Mod - 1) = 0
  ∧ (∀ n, seqCounter n = n % uint32Mod) := by
  refine ⟨?_, ?_, ?_, ?_, by decide, ?_⟩
  · intro f c u r ca fi
    refine ⟨rfl, ?_, rfl⟩
    show (Ev.counterInc :: Ev.setHeader "X-Requests-Count" (toString (counterIncrement c))
        :: handleABody f u r ca fi).countP isCounterIncEv = 1
    rw [List.countP_cons, List.countP_cons,
       countP_counterInc_zero (handleABody_routing f u r ca fi)]
    rfl
  · intro f c u r ca fi
    refine ⟨rfl, ?_, rfl⟩
    show (Ev.counterInc :: Ev.setHeader "X-Requests-Count" (toString (counterIncrement c))
        :: Ev.setHeader hstsName hstsValue
        :: handleBTry f u r ca fi).countP isCounterIncEv = 1
    rw [List.countP_cons, List.countP_cons, List.countP_cons,
       countP_counterInc_zero (handleBTry_routing f u r ca fi)]
    rfl
  · intro c
    exact Nat.mod_lt _ (by norm_num [uint32Mod])
  · intro c h
    exact Nat.mod_eq_of_lt h
  · intro n
    induction n with
    | zero => rfl
    | succ n ih =>
      rw [seqCounter, ih, counterIncrement]
      have hm : uint32Mod = 4294967296 := by norm_num [uint32Mod]
      rw [hm]
      omega

/-- Witness for C8: below the wrap point the increment is a plain
successor. -/
theorem request_counter_spec_witness :
    counterIncrement 5 = 5 + 1 :=
  request_counter_spec.2.2.2.1 5 (by norm_num [uint32Mod])

/-! ## The HSTS header (claim C1) -/

/-- C1 (amended): variant B sets `Strict-Transport-Security` to its fixed
value as the third prologue event of every request — before any status
line or body event, whatever the route, fault, cache or filesystem
behaviour — and exactly once; variant A's `RequestHandler.handle` never
sets the HSTS header on any response. -/
theorem hsts_header_amended :
    (∀ f c u r ca fi,
        (handleB f c u r ca fi).2.take 3
          = [Ev.counterInc,
             Ev.setHeader "X-Requests-Count" (toString (counterIncrement c)),
             Ev.setHeader hstsName hstsValue])
  ∧ (∀ f c u r ca fi, (handleB f c u r ca fi).2.countP isHstsSet = 1)
  ∧ (∀ f c u r ca fi, (handleA f c u r ca fi).2.countP isHstsSet = 0) := by
  refine ⟨fun f c u r ca fi => rfl, ?_, ?_⟩
  · intro f c u r ca fi
    show (Ev.counterInc :: Ev.setHeader "X-Requests-Count" (toString (counterIncrement c))
        :: Ev.setHeader hstsName hstsValue
        :: handleBTry f u r ca fi).countP isHstsSet = 1
    rw [List.countP_cons, List.countP_cons, List.countP_cons,
       countP_hsts_zero (handleBTry_routing f u r ca fi)]
    rfl
  · intro f c u r ca fi
    show (Ev.counterInc :: Ev.setHeader "X-Requests-Count" (toString (counterIncrement c))
        :: handleABody f u r ca fi).countP isHstsSet = 0
    rw [List.countP_cons, List.countP_cons,
       countP_hsts_zero (handleABody_routing f u r ca fi)]
    rfl

/-- Counterexample to C1 as stated: a concrete request handled by variant
A's `RequestHandler.handle` (here the health check, on a fresh counter)
produces a trace containing no HSTS header set at all. -/
theorem hsts_missing_handleA :
    (handleA Fault.ok 0 "/api/health" "/srv/public" (fun _ => none)
        (fun _ => none)).2.countP isHstsSet = 0 := rfl

/-! ## The 404 route (claim C9) -/

/-- C9: when the URL is not the health route, the cache probe misses, and
the resolved path does not exist on the filesystem, both handlers respond
404 `text/plain` with body exactly `Not Found` (after their header
prologues). -/
theorem not_found_spec (c : Nat) (u r : String) (ca : Nat → Option ByteSeq)
    (fi : String → Option ByteSeq) (hu : u ≠ "/api/health") (hca : ca 0 = none)
    (hfi : fi (resolvePath r u) = none) :
    (handleA Fault.ok c u r ca fi).2
      = [Ev.counterInc, Ev.setHeader "X-Requests-Count" (toString (counterIncrement c)),
         Ev.cacheGetEv (resolvePath r u) none, Ev.writeHead 404 "text/plain",
         Ev.endResp (some (bytes "Not Found"))]
  ∧ (handleB Fault.ok c u r ca fi).2
      = [Ev.counterInc, Ev.setHeader "X-Requests-Count" (toString (counterIncrement c)),
         Ev.setHeader hstsName hstsValue,
         Ev.cacheGetEv (resolvePath r u) none, Ev.writeHead 404 "text/plain",
         Ev.endResp (some (bytes "Not Found"))] := by
  constructor
  · simp [handleA, handleABody, hu, hca, hfi]
  · simp [handleB, handleBTry, hca, hfi]

/-- Witness for C9: the miss on `/nf` under root `/r` with an empty
filesystem is answered 404 by variant A. -/
theorem not_found_spec_witness :
    (handleA Fault.ok 0 "/nf" "/r" (fun _ => none) (fun _ => none)).2
      = [Ev.counterInc, Ev.setHeader "X-Requests-Count" (toString (counterIncrement 0)),
         Ev.cacheGetEv (resolvePath "/r" "/nf") none, Ev.writeHead 404 "text/plain",
         Ev.endResp (some (bytes "Not Found"))] :=
  (not_found_spec 0 "/nf" "/r" (fun _ => none) (fun _ => none) (by decide) rfl rfl).1

/-! ## The double cache lookup (claim C10) -/

/-- C10: in variant A's cache-hit branch the cache is consulted exactly
twice: the 200 head is committed on the first `fileCache.get` and the body
is the second, independent `fileCache.get`; when the weakly-held entry is
reclaimed between the two lookups, the response is a 200 `text/html` whose
body call is `res.end(undefined)` — an empty body — and no disk read is
attempted as a fallback. -/
theorem cache_double_get_spec (c : Nat) (u r : String) (ca : Nat → Option ByteSeq)
    (fi : String → Option ByteSeq) (v : ByteSeq) (hu : u ≠ "/api/health")
    (h0 : ca 0 = some v) (h1 : ca 1 = none) :
    (handleA Fault.ok c u r ca fi).2
      = [Ev.counterInc, Ev.setHeader "X-Requests-Count" (toString (counterIncrement c)),
         Ev.cacheGetEv (resolvePath r u) (some v), Ev.writeHead 200 "text/html",
         Ev.cacheGetEv (resolvePath r u) none, Ev.endResp none]
  ∧ (handleA Fault.ok c u r ca fi).2.countP isCacheGetEv = 2
  ∧ (handleA Fault.ok c u r ca fi).2.countP isFileReadEv = 0 := by
  have ht : (handleA Fault.ok c u r ca fi).2
      = [Ev.counterInc, Ev.setHeader "X-Requests-Count" (toString (counterIncrement c)),
         Ev.cacheGetEv (resolvePath r u) (some v), Ev.writeHead 200 "text/html",
         Ev.cacheGetEv (resolvePath r u) none, Ev.endResp none] := by
    simp [handleA, handleABody, hu, h0, h1]
  refine ⟨ht, ?_, ?_⟩ <;> rw [ht] <;> rfl

/-- Witness for C10: a first hit followed by a reclaimed second lookup
yields exactly two cache probes. -/
theorem cache_double_get_spec_witness :
    (handleA Fault.ok 0 "/a" "/r" (fun k => if k = 0 then some [7] else none)
        (fun _ => none)).2.countP isCacheGetEv = 2 :=
  (cache_double_get_spec 0 "/a" "/r" (fun k => if k = 0 then some [7] else none)
      (fun _ => none) [7] (by decide) rfl rfl).2.1

/-! ## Cache population order (claim C5) -/

/-- C5 (amended): on the streaming path (cache miss, file exists, no
fault), variant A populates the cache only after the response stream has
fully completed and the full read of the same file has succeeded — the
`cacheSetEv` with the file's full content is the final event, after every
chunk write, after `endResp`, and after `fileReadEv`; variant B instead
performs the full read and populates the cache synchronously right after
committing the 200 head, before the deferred stream writes a single
chunk. -/
theorem cache_population_order_amended (c : Nat) (u r : String)
    (ca : Nat → Option ByteSeq) (fi : String → Option ByteSeq) (content : ByteSeq)
    (hu : u ≠ "/api/health") (hca : ca 0 = none)
    (hfi : fi (resolvePath r u) = some content) :
    (handleA Fault.ok c u r ca fi).2
      = [Ev.counterInc, Ev.setHeader "X-Requests-Count" (toString (counterIncrement c)),
         Ev.cacheGetEv (resolvePath r u) none, Ev.writeHead 200 "text/html"]
        ++ (readStreamChunks content).map Ev.write
        ++ [Ev.endResp none, Ev.fileReadEv (resolvePath r u),
            Ev.cacheSetEv (resolvePath r u) content]
  ∧ (handleB Fault.ok c u r ca fi).2
      = [Ev.counterInc, Ev.setHeader "X-Requests-Count" (toString (counterIncrement c)),
         Ev.setHeader hstsName hstsValue,
         Ev.cacheGetEv (resolvePath r u) none, Ev.writeHead 200 "text/html",
         Ev.fileReadEv (resolvePath r u), Ev.cacheSetEv (resolvePath r u) content]
        ++ (readStreamChunks content).map Ev.write ++ [Ev.endResp none] := by
  constructor
  · simp [handleA, handleABody, streamEvsA, streamEvsANoFault, hu, hca, hfi]
  · simp [handleB, handleBTry, streamEvsB, streamEvsBDeferred, hca, hfi]

/-- Witness for C5's amended statement: a concrete one-chunk file streamed
by variant A has the cache set as its final event. -/
theorem cache_population_order_amended_witness :
    (handleA Fault.ok 0 "/a" "/r" (fun _ => none) (fun _ => some [9])).2
      = [Ev.counterInc, Ev.setHeader "X-Requests-Count" (toString (counterIncrement 0)),
         Ev.cacheGetEv (resolvePath "/r" "/a") none, Ev.writeHead 200 "text/html"]
        ++ (readStreamChunks [9]).map Ev.write
        ++ [Ev.endResp none, Ev.fileReadEv (resolvePath "/r" "/a"),
            Ev.cacheSetEv (resolvePath "/r" "/a") [9]] :=
  (cache_population_order_amended 0 "/a" "/r" (fun _ => none) (fun _ => some [9]) [9]
      (by decide) rfl rfl).1

/-- Counterexample to C5 as stated: on a concrete streamed request handled
by variant B (`StaticHttpServer.handleRequest`), the `fileCache.set` event
occurs strictly before the event that ends the response stream. -/
theorem cache_set_before_stream_end_handleB :
    List.findIdx isCacheSetEv
        (handleB Fault.ok 0 "/x" "/r" (fun _ => none) (fun _ => some [9])).2
      < List.findIdx isEndRespEv
        (handleB Fault.ok 0 "/x" "/r" (fun _ => none) (fun _ => some [9])).2 := by
  decide

/-! ## Error handling (claim C2) -/

/-- C2 (amended): variant B catches synchronous faults during path
resolution, cache lookup and existence check and — headers being
uncommitted — responds 500 `text/plain` with body `Internal Server Error`,
letting nothing escape; variant A has no handler-level catch, so the same
faults escape as unhandled rejections with no 500 response; and in both
variants a fault inside the asynchronous chunk loop escapes the handler. -/
theorem error_handling_amended (c : Nat) (u r : String)
    (ca : Nat → Option ByteSeq) (fi : String → Option ByteSeq) :
    ((handleB Fault.atResolve c u r ca fi).2
        = [Ev.counterInc, Ev.setHeader "X-Requests-Count" (toString (counterIncrement c)),
           Ev.setHeader hstsName hstsValue] ++ err500)
  ∧ ((handleB Fault.atCacheGet c u r ca fi).2
        = [Ev.counterInc, Ev.setHeader "X-Requests-Count" (toString (counterIncrement c)),
           Ev.setHeader hstsName hstsValue] ++ err500)
  ∧ (ca 0 = none →
      (handleB Fault.atExists c u r ca fi).2
        = [Ev.counterInc, Ev.setHeader "X-Requests-Count" (toString (counterIncrement c)),
           Ev.setHeader hstsName hstsValue, Ev.cacheGetEv (resolvePath r u) none] ++ err500)
  ∧ (handleB Fault.atResolve c u r ca fi).2.countP isEscapeEv = 0
  ∧ (u ≠ "/api/health" →
      (handleA Fault.atResolve c u r ca fi).2
        = [Ev.counterInc, Ev.setHeader "X-Requests-Count" (toString (counterIncrement c)),
           Ev.throwEscape])
  ∧ (u ≠ "/api/health" →
      (handleA Fault.atCacheGet c u r ca fi).2
        = [Ev.counterInc, Ev.setHeader "X-Requests-Count" (toString (counterIncrement c)),
           Ev.throwEscape])
  ∧ (u ≠ "/api/health" → ca 0 = none →
      (handleA Fault.atExists c u r ca fi).2
        = [Ev.counterInc, Ev.setHeader "X-Requests-Count" (toString (counterIncrement c)),
           Ev.cacheGetEv (resolvePath r u) none, Ev.throwEscape])
  ∧ (∀ i content, u ≠ "/api/health" → ca 0 = none →
      fi (resolvePath r u) = some content → i < (readStreamChunks content).length →
      Ev.throwEscape ∈ (handleA (Fault.atStream i) c u r ca fi).2
    ∧ Ev.throwEscape ∈ (handleB (Fault.atStream i) c u r ca fi).2) := by
  refine ⟨by simp [handleB, handleBTry, err500], by simp [handleB, handleBTry, err500],
    ?_, rfl, ?_, ?_, ?_, ?_⟩
  · intro hca
    simp [handleB, handleBTry, err500, hca]
  · intro hu
    simp [handleA, handleABody, hu]
  · intro hu
    simp [handleA, handleABody, hu]
  · intro hu hca
    simp [handleA, handleABody, hu, hca]
  · intro i content hu hca hfi hi
    constructor
    · have ht : (handleA (Fault.atStream i) c u r ca fi).2
          = Ev.counterInc :: Ev.setHeader "X-Requests-Count" (toString (counterIncrement c))
            :: Ev.cacheGetEv (resolvePath r u) none
            :: streamEvsA (Fault.atStream i) (resolvePath r u) content := by
        simp [handleA, handleABody, hu, hca, hfi]
      rw [ht]
      have hesc : Ev.throwEscape ∈ streamEvsA (Fault.atStream i) (resolvePath r u) content := by
        simp only [streamEvsA]
        rw [if_pos hi]
        exact List.mem_cons_of_mem _ (List.mem_append_right _ (List.mem_singleton.mpr rfl))
      exact List.mem_cons_of_mem _ (List.mem_cons_of_mem _ (List.mem_cons_of_mem _ hesc))
    · have ht : (handleB (Fault.atStream i) c u r ca fi).2
          = Ev.counterInc :: Ev.setHeader "X-Requests-Count" (toString (counterIncrement c))
            :: Ev.setHeader hstsName hstsValue :: Ev.cacheGetEv (resolvePath r u) none
            :: streamEvsB (Fault.atStream i) (resolvePath r u) content := by
        simp [handleB, handleBTry, hca, hfi]
      rw [ht]
      have hesc : Ev.throwEscape ∈ streamEvsB (Fault.atStream i) (resolvePath r u) content := by
        simp only [streamEvsB, streamEvsBDeferred]
        rw [if_pos hi]
        refine List.mem_cons_of_mem _ (List.mem_cons_of_mem _ (List.mem_cons_of_mem _ ?_))
        exact List.mem_append_right _ (List.mem_singleton.mpr rfl)
      exact List.mem_cons_of_mem _ (List.mem_cons_of_mem _
        (List.mem_cons_of_mem _ (List.mem_cons_of_mem _ hesc)))

/-- Witness for C2's amended statement: a concrete existence-check fault
is answered 500 by variant B, and a concrete mid-stream fault escapes
variant A. -/
theorem error_handling_amended_witness :
    (handleB Fault.atExists 0 "/x" "/r" (fun _ => none) (fun _ => none)).2
      = [Ev.counterInc, Ev.setHeader "X-Requests-Count" (toString (counterIncrement 0)),
         Ev.setHeader hstsName hstsValue, Ev.cacheGetEv (resolvePath "/r" "/x") none] ++ err500
  ∧ Ev.throwEscape ∈ (handleA (Fault.atStream 0) 0 "/x" "/r" (fun _ => none)
        (fun _ => some [9])).2 := by
  constructor
  · exact (error_handling_amended 0 "/x" "/r" (fun _ => none) (fun _ => none)).2.2.1 rfl
  · exact ((error_handling_amended 0 "/x" "/r" (fun _ => none)
        (fun _ => some [9])).2.2.2.2.2.2.2 0 [9] (by decide) rfl rfl (by decide)).1

/-- Counterexample to C2 as stated: a concrete request handled by variant
A (`RequestHandler.handle`) with a fault during the existence check
commits no status line at all — in particular no 500 — and the error
escapes the handler. -/
theorem error_escapes_handleA :
    (handleA Fault.atExists 0 "/x" "/r" (fun _ => none)
        (fun _ => none)).2.countP isWriteHeadEv = 0
  ∧ (handleA Fault.atExists 0 "/x" "/r" (fun _ => none)
        (fun _ => none)).2.countP isEscapeEv = 1 :=
  ⟨rfl, rfl⟩

end HttpsServer
